import Mathlib

/-!
Shallow embedding of the `log` package of nekrassov01/logger (Go).

Translation conventions:
- Go strings and byte buffers are both modelled as `List Char` (`GoStr`).
  Writer-style Go functions that append to a `bytes.Buffer` are translated to
  pure functions returning the emitted chunk; call sites append the chunk to
  the accumulated buffer, which preserves the byte-for-byte output.
- Go `nil` pointers and `nil` interface values are modelled with `Option`.
  A `nil` slice and an empty slice both range-iterate over nothing, so slices
  are plain lists except where the nil/non-nil distinction is observable
  (handler and style reference fields in the heap models below).
- The Go field name `prefix` is spelled `pfx` (and `suffix` is `sfx`).
- Machine integers (`int`, `int64`, `slog.Level`) are `Int`; `uint64` is `Nat`.
- Library leaf formatters that are external to this repository
  (`strconv.Quote`, `go-runewidth` width tables, `time.AppendFormat`,
  `Duration.String`) are either modelled faithfully for the character ranges
  exercised here (`goQuote`, `charWidth`) or carried as pre-rendered text on
  the value (time / duration / float / any attribute values).
-/

/-- Go strings and byte slices, as lists of characters. -/
abbrev GoStr := List Char

/-- SGR attribute codes named in color.go (the subset used by the presets). -/
def sgrBold : Int := 1

/-- SGR underline attribute code. -/
def sgrUnderline : Int := 4

/-- SGR high-intensity black foreground code. -/
def sgrFgHiBlack : Int := 90

/-- SGR high-intensity red foreground code. -/
def sgrFgHiRed : Int := 91

/-- SGR high-intensity green foreground code. -/
def sgrFgHiGreen : Int := 92

/-- SGR high-intensity yellow foreground code. -/
def sgrFgHiYellow : Int := 93

/-- SGR high-intensity magenta foreground code. -/
def sgrFgHiMagenta : Int := 95

/-- Decimal rendering of an integer, as produced by strconv.AppendInt base 10. -/
def intDec (i : Int) : GoStr := (toString i).toList

/-- Decimal rendering of an unsigned integer (strconv.AppendUint base 10). -/
def natDec (n : Nat) : GoStr := (toString n).toList

/-- Color holds SGR sequences for text styling (struct Color of color.go;
field prefix is spelled pfx here). -/
structure Color where
  codes : List Int
  pfx : GoStr
  reset : GoStr
  deriving Repr, DecidableEq

/-- makeSGR builds the SGR escape sequence for the given codes:
ESC `[` code `;` ... `m`, or nil for an empty code list. -/
def makeSGR (codes : List Int) : GoStr :=
  match codes with
  | [] => []
  | c :: rest => ['\x1b', '['] ++ intDec c ++ rest.flatMap (fun d => ';' :: intDec d) ++ ['m']

/-- NewColor returns a new Color with the given SGR codes; zero codes yield a
value with all three fields empty (color.go lines 66-79). -/
def newColor (codes : List Int) : Color :=
  if codes = [] then { codes := [], pfx := [], reset := [] }
  else { codes := codes, pfx := makeSGR codes, reset := makeSGR [0] }

/-- WriteString of Color (color.go lines 82-92): emits activate sequence when
the receiver is non-nil and has one, then the content when non-empty, then the
reset sequence. The returned chunk is appended to the buffer by callers. -/
def colorWriteString (c : Option Color) (s : GoStr) : GoStr :=
  (match c with
   | some col => if col.pfx ≠ [] then col.pfx else []
   | none => []) ++
  (if s ≠ [] then s else []) ++
  (match c with
   | some col => if col.reset ≠ [] then col.reset else []
   | none => [])

/-- WriteBytes of Color (color.go lines 95-105); identical emission shape to
WriteString with a byte-slice argument. -/
def colorWriteBytes (c : Option Color) (b : GoStr) : GoStr :=
  (match c with
   | some col => if col.pfx ≠ [] then col.pfx else []
   | none => []) ++
  (if b ≠ [] then b else []) ++
  (match c with
   | some col => if col.reset ≠ [] then col.reset else []
   | none => [])

/-- Modelled from go-runewidth: display-column width of one rune. Control
characters are width 0, East Asian wide/fullwidth ranges are width 2, all
other characters width 1. The ranges cover the CJK blocks exercised by the
tests; width is counted per column, never per byte. -/
def charWidth (c : Char) : Nat :=
  let n := c.toNat
  if n < 0x20 ∨ (0x7F ≤ n ∧ n < 0xA0) then 0
  else if (0x1100 ≤ n ∧ n ≤ 0x115F) ∨ (0x2E80 ≤ n ∧ n ≤ 0x303E) ∨
          (0x3041 ≤ n ∧ n ≤ 0x33FF) ∨ (0x3400 ≤ n ∧ n ≤ 0x4DBF) ∨
          (0x4E00 ≤ n ∧ n ≤ 0x9FFF) ∨ (0xA000 ≤ n ∧ n ≤ 0xA4CF) ∨
          (0xAC00 ≤ n ∧ n ≤ 0xD7A3) ∨ (0xF900 ≤ n ∧ n ≤ 0xFAFF) ∨
          (0xFE30 ≤ n ∧ n ≤ 0xFE4F) ∨ (0xFF00 ≤ n ∧ n ≤ 0xFF60) ∨
          (0xFFE0 ≤ n ∧ n ≤ 0xFFE6) ∨ (0x20000 ≤ n ∧ n ≤ 0x2FFFD) ∨
          (0x30000 ≤ n ∧ n ≤ 0x3FFFD) then 2
  else 1

/-- runewidth.StringWidth: sum of per-rune display widths. -/
def stringWidth (s : GoStr) : Nat := (s.map charWidth).sum

/-- A run of n padding spaces. -/
def spaces (n : Nat) : GoStr := List.replicate n ' '

/-- align (handler source lines 504-522): centers s in a field of w display
columns; left pad is p/2, right pad the remainder, no padding when the field
is not wider than the text. -/
def align (buf : GoStr) (s : GoStr) (w : Int) : GoStr :=
  if 0 < w then
    let c : Int := stringWidth s
    let p : Int := w - c
    if 0 < p then
      let lp := p.toNat / 2
      let rp := p.toNat - lp
      buf ++ spaces lp ++ s ++ spaces rp
    else buf ++ s
  else buf ++ s

/-- Lowercase hex digits, as used by strconv quoting. -/
def hexDigits : GoStr := "0123456789abcdef".toList

/-- Two lowercase hex digits of a byte value. -/
def hexByte (n : Nat) : GoStr := [hexDigits.getD (n / 16 % 16) '0', hexDigits.getD (n % 16) '0']

/-- Four lowercase hex digits of a 16-bit value. -/
def hex4 (n : Nat) : GoStr := hexByte (n / 256 % 256) ++ hexByte (n % 256)

/-- Eight lowercase hex digits of a 32-bit value. -/
def hex8 (n : Nat) : GoStr := hex4 (n / 65536 % 65536) ++ hex4 (n % 65536)

/-- Modelled from strconv.Quote: escaping of a single character. Faithful for
ASCII (printable characters pass through, quote and backslash are escaped,
the C escapes are used for the usual control characters); characters outside
ASCII are hex/unicode-escaped, which matches strconv for non-printable runes. -/
def quoteChar (c : Char) : GoStr :=
  if c = '"' ∨ c = '\\' then ['\\', c]
  else if 0x20 ≤ c.toNat ∧ c.toNat ≤ 0x7E then [c]
  else if c.toNat = 0x07 then ['\\', 'a']
  else if c.toNat = 0x08 then ['\\', 'b']
  else if c.toNat = 0x0C then ['\\', 'f']
  else if c.toNat = 0x0A then ['\\', 'n']
  else if c.toNat = 0x0D then ['\\', 'r']
  else if c.toNat = 0x09 then ['\\', 't']
  else if c.toNat = 0x0B then ['\\', 'v']
  else if c.toNat < 0x80 then ['\\', 'x'] ++ hexByte c.toNat
  else if c.toNat < 0x10000 then ['\\', 'u'] ++ hex4 c.toNat
  else ['\\', 'U'] ++ hex8 c.toNat

/-- Modelled from strconv.Quote: double-quote-escaped form of a string. -/
def goQuote (s : GoStr) : GoStr := '"' :: s.flatMap quoteChar ++ ['"']

/-- strings.ContainsAny: whether s contains any character of chars. -/
def containsAny (s : GoStr) (chars : GoStr) : Bool := s.any (fun c => chars.contains c)

/-- The quoting condition of writeAttr for string values (handler source line
473): the value contains a space, tab or newline, or a backslash or quote. -/
def needsQuote (s : GoStr) : Bool :=
  containsAny s " \t\n".toList || containsAny s "\\\"".toList

/-- AffixStyle: literal text plus an optional color (style.go). -/
structure AffixStyle where
  text : GoStr
  color : Option Color
  deriving Repr, DecidableEq

/-- LevelStyle: per-severity display config (style.go); pfx/sfx stand for the
Prefix/Suffix fields. -/
structure LevelStyle where
  pfx : AffixStyle
  sfx : AffixStyle
  text : GoStr
  color : Option Color
  width : Int
  deriving Repr, DecidableEq

/-- LabelStyle: display config of the static label (style.go). -/
structure LabelStyle where
  pfx : AffixStyle
  sfx : AffixStyle
  color : Option Color
  width : Int
  deriving Repr, DecidableEq

/-- AttrStyle: attribute key/value colors and separator (style.go). -/
structure AttrStyle where
  keyColor : Option Color
  valueColor : Option Color
  separator : GoStr
  deriving Repr, DecidableEq

/-- CallerStyle: caller segment display config (style.go). -/
structure CallerStyle where
  pfx : AffixStyle
  sfx : AffixStyle
  color : Option Color
  fullpath : Bool
  deriving Repr, DecidableEq

/-- Severity constants of log/slog: LevelDebug. -/
def levelDebug : Int := -4

/-- slog.LevelInfo. -/
def levelInfo : Int := 0

/-- slog.LevelWarn. -/
def levelWarn : Int := 4

/-- slog.LevelError. -/
def levelError : Int := 8

/-- The per-severity style mapping; a Go map modelled as an association list
(first binding of a key wins, as assocSet below keeps keys unique). -/
abbrev LevelMap := List (Int × LevelStyle)

/-- Style: the full style configuration (style.go); the Level map is the
association list above. -/
structure Style where
  level : LevelMap
  label : LabelStyle
  attr : AttrStyle
  caller : CallerStyle
  deriving Repr, DecidableEq

/-- Zero value of AffixStyle. -/
def zeroAffixStyle : AffixStyle := { text := [], color := none }

/-- Zero value of LevelStyle, the silent default a Go map read yields for an
unmapped severity. -/
def zeroLevelStyle : LevelStyle :=
  { pfx := zeroAffixStyle, sfx := zeroAffixStyle, text := [], color := none, width := 0 }

/-- Zero value of LabelStyle. -/
def zeroLabelStyle : LabelStyle :=
  { pfx := zeroAffixStyle, sfx := zeroAffixStyle, color := none, width := 0 }

/-- Go map read with zero-value default for a missing severity key. -/
def lookupLevel (m : LevelMap) (l : Int) : LevelStyle :=
  match m.find? (fun e => e.1 == l) with
  | some e => e.2
  | none => zeroLevelStyle

/-- Style0 (style.go lines 873-901): the no-color preset. -/
def style0 : Style :=
  { level :=
      [(levelDebug, { zeroLevelStyle with text := "[DBG]".toList }),
       (levelInfo, { zeroLevelStyle with text := "[INF]".toList }),
       (levelWarn, { zeroLevelStyle with text := "[WRN]".toList }),
       (levelError, { zeroLevelStyle with text := "[ERR]".toList })],
    label := zeroLabelStyle,
    attr := { keyColor := none, valueColor := none, separator := "=".toList },
    caller :=
      { pfx := { text := "<".toList, color := none },
        sfx := { text := ">".toList, color := none },
        color := none, fullpath := false } }

/-- Style1 (style.go lines 904-943): the basic-foreground-color preset, the
default style of NewCLIHandler. -/
def style1 : Style :=
  { level :=
      [(levelDebug, { zeroLevelStyle with
                      text := "DBG".toList,
                      color := some (newColor [sgrBold, sgrFgHiMagenta]) }),
       (levelInfo, { zeroLevelStyle with
                     text := "INF".toList,
                     color := some (newColor [sgrBold, sgrFgHiGreen]) }),
       (levelWarn, { zeroLevelStyle with
                     text := "WRN".toList,
                     color := some (newColor [sgrBold, sgrFgHiYellow]) }),
       (levelError, { zeroLevelStyle with
                      text := "ERR".toList,
                      color := some (newColor [sgrBold, sgrFgHiRed]) })],
    label := { zeroLabelStyle with color := some (newColor [sgrFgHiBlack, sgrBold]) },
    attr := { keyColor := some (newColor [sgrFgHiBlack]), valueColor := none, separator := "=".toList },
    caller :=
      { pfx := { text := "<".toList, color := some (newColor [sgrFgHiBlack]) },
        sfx := { text := ">".toList, color := some (newColor [sgrFgHiBlack]) },
        color := some (newColor [sgrFgHiBlack, sgrUnderline]), fullpath := false } }

mutual
/-- Closed tagged union of slog attribute value kinds. Scalar kinds that are
rendered by Go library formatters external to this repository (float, time,
duration, any) carry their library-rendered text as data; string, int, uint
and bool are rendered by the embedding itself. -/
inductive AttrValue where
  | vstring (s : GoStr)
  | vint64 (i : Int)
  | vuint64 (n : Nat)
  | vfloat64 (rendered : GoStr)
  | vbool (b : Bool)
  | vtime (rendered : GoStr)
  | vduration (rendered : GoStr)
  | vgroup (children : List Attr)
  | vany (rendered : GoStr)
/-- slog.Attr: a key/value pair. -/
inductive Attr where
  | mk (key : GoStr) (value : AttrValue)
end

/-- Key of an attribute. -/
def Attr.key : Attr → GoStr
  | .mk k _ => k

/-- Value of an attribute. -/
def Attr.value : Attr → AttrValue
  | .mk _ v => v

/-- The group-path loop of writeAttr (handler source lines 459-464): each
group key is written through the key color, with a colored dot between
consecutive keys. -/
def writeGroupKeys (kc : Option Color) (groups : List GoStr) : GoStr :=
  match groups with
  | [] => []
  | [k] => colorWriteString kc k
  | k :: rest => colorWriteString kc k ++ colorWriteString kc ['.'] ++ writeGroupKeys kc rest

/-- The group-path block of writeAttr (handler source lines 458-466): when the
accumulated group stack is non-empty, its keys joined with dots plus one
trailing colored dot before the leaf key; nothing otherwise. -/
def writeGroupPath (kc : Option Color) (groups : List GoStr) : GoStr :=
  match groups with
  | [] => []
  | _ => writeGroupKeys kc groups ++ colorWriteString kc ['.']

/-- The value switch of writeAttr (handler source lines 470-500). String
values are quoted when needsQuote holds; int/uint render in decimal; bool as
true/false literals; the library-formatted kinds emit their carried text. The
group arm is unreachable because writeAttr handles groups before the switch. -/
def writeValue (vc : Option Color) (v : AttrValue) : GoStr :=
  match v with
  | .vstring s => if needsQuote s then colorWriteString vc (goQuote s) else colorWriteString vc s
  | .vint64 i => colorWriteBytes vc (intDec i)
  | .vuint64 n => colorWriteBytes vc (natDec n)
  | .vfloat64 rendered => colorWriteBytes vc rendered
  | .vbool b => if b then colorWriteString vc "true".toList else colorWriteString vc "false".toList
  | .vtime rendered => colorWriteBytes vc rendered
  | .vduration rendered => colorWriteString vc rendered
  | .vgroup _ => []
  | .vany rendered => colorWriteString vc rendered

mutual
/-- writeAttr (handler source lines 424-501): a group-kind attribute pushes
its key onto the accumulated group stack and renders its children; any other
kind renders group path, key, separator (all in the key color) and then the
value. The source maintains the group stack with capacity tricks
(groups[:len+1] versus append); both branches denote groups ++ [key]. -/
def writeAttr (a : Attr) (groups : List GoStr) (style : Style) (timeLayout : GoStr) : GoStr :=
  match a with
  | .mk key (.vgroup children) =>
      writeAttrChildren children (groups ++ [key]) style timeLayout
  | .mk key v =>
      writeGroupPath style.attr.keyColor groups ++
      colorWriteString style.attr.keyColor key ++
      colorWriteString style.attr.keyColor style.attr.separator ++
      writeValue style.attr.valueColor v
/-- The children loop of the group arm of writeAttr (handler source lines
438-444, 448-454): children separated by a single space, no separator after
the last child. -/
def writeAttrChildren (attrs : List Attr) (groups : List GoStr) (style : Style) (timeLayout : GoStr) : GoStr :=
  match attrs with
  | [] => []
  | [a] => writeAttr a groups style timeLayout
  | a :: rest =>
      writeAttr a groups style timeLayout ++ [' '] ++ writeAttrChildren rest groups style timeLayout
end

/-- Spaces-joined concatenation, used to state the child-separation property. -/
def joinSpace : List GoStr → GoStr
  | [] => []
  | [x] => x
  | x :: rest => x ++ [' '] ++ joinSpace rest

/-- A log record as the handler consumes it (slog.Record): severity, message,
timestamp (carried as the text of r.Time.AppendFormat with the configured
layout), program counter (0 = absent), and attributes. -/
structure Record where
  level : Int
  message : GoStr
  timeRendered : GoStr
  pc : Nat
  attrs : List Attr

/-- CLIHandler state (handler source lines 102-117). The writer and mutex are
not part of the rendered output; the sink is abstracted by sinkErr, which
reports a write failure for a flushed line, and caller resolution
(runtime.FuncForPC) by resolvePC, which yields function name, file and line.
pcCache is the pc-to-rendered-bytes cache map. -/
structure Handler where
  level : Option Int
  label : GoStr
  attrs : List Attr
  attrsCache : GoStr
  attrHandler : Option (Attr → Attr)
  groups : List GoStr
  groupsCache : Option (List GoStr)
  pcCache : List (Nat × GoStr)
  hasCaller : Bool
  hasTime : Bool
  timeLayout : GoStr
  style : Style
  resolvePC : Nat → Option (GoStr × GoStr × Int)
  sinkErr : GoStr → Option GoStr

/-- The handler NewCLIHandler starts from before options run (handler source
lines 120-128): severity threshold info, RFC3339 time layout, Style1. -/
def defaultHandler : Handler :=
  { level := some levelInfo
    label := []
    attrs := []
    attrsCache := []
    attrHandler := none
    groups := []
    groupsCache := none
    pcCache := []
    hasCaller := false
    hasTime := false
    timeLayout := "2006-01-02T15:04:05Z07:00".toList
    style := style1
    resolvePC := fun _ => none
    sinkErr := fun _ => none }

/-- The configuration options of NewCLIHandler as a closed vocabulary
(WithLevel, WithLabel, WithCaller, WithTime, WithTimeFormat, WithAttrHandler,
WithStyle; handler source lines 136-193). Option payloads that are nilable in
Go carry an Option. -/
inductive HandlerOption where
  | optLevel (l : Option Int)
  | optLabel (s : GoStr)
  | optCaller (b : Bool)
  | optTime (b : Bool)
  | optTimeFormat (s : GoStr)
  | optAttrHandler (f : Option (Attr → Attr))
  | optStyle (s : Option Style)

/-- Whether an option is a WithLevel option. -/
def HandlerOption.isLevelOption : HandlerOption → Bool
  | .optLevel _ => true
  | _ => false

/-- Application of one option (handler source lines 136-193); nil payloads of
WithLevel, WithAttrHandler, WithStyle and an empty WithTimeFormat layout leave
the handler unchanged, exactly as the source nil/empty checks do. -/
def applyOption (h : Handler) : HandlerOption → Handler
  | .optLevel l =>
      match l with
      | some lv => { h with level := some lv }
      | none => h
  | .optLabel s => { h with label := s }
  | .optCaller b => { h with hasCaller := b }
  | .optTime b => { h with hasTime := b }
  | .optTimeFormat s => if s ≠ [] then { h with timeLayout := s } else h
  | .optAttrHandler f =>
      match f with
      | some fn => { h with attrHandler := some fn }
      | none => h
  | .optStyle s =>
      match s with
      | some st => { h with style := st }
      | none => h

/-- NewCLIHandler (handler source lines 120-133): the default handler with the
options applied in order. -/
def newCLIHandler (opts : List HandlerOption) : Handler :=
  opts.foldl applyOption defaultHandler

/-- Enabled (handler source lines 196-201): true when the threshold interface
is nil, else level at least the threshold. -/
def Handler.enabled (h : Handler) (level : Int) : Bool :=
  match h.level with
  | none => true
  | some t => decide (t ≤ level)

/-- The severity classification switch of Handle (handler source lines
214-226): the debug, info and warn severities match exactly, error-or-above
collapses to the error bucket, anything else is unclassified. -/
def classify (m : LevelMap) (l : Int) : Option LevelStyle :=
  if l = levelDebug then some (lookupLevel m levelDebug)
  else if l = levelInfo then some (lookupLevel m levelInfo)
  else if l = levelWarn then some (lookupLevel m levelWarn)
  else if levelError ≤ l then some (lookupLevel m levelError)
  else none

/-- Error text of the unclassified-severity failure. -/
def unknownLogLevel : GoStr := "unknown log level".toList

/-- Assoc-list lookup for the pc cache map. -/
def lookupPC (m : List (Nat × GoStr)) (pc : Nat) : Option GoStr :=
  match m.find? (fun e => e.1 == pc) with
  | some e => some e.2
  | none => none

/-- writeCaller (handler source lines 411-421): prefix decoration, the cached
bytes through the caller color, suffix decoration, one trailing space. -/
def writeCaller (b : GoStr) (style : Style) : GoStr :=
  (if style.caller.pfx.text ≠ [] then colorWriteString style.caller.pfx.color style.caller.pfx.text else []) ++
  colorWriteBytes style.caller.color b ++
  (if style.caller.sfx.text ≠ [] then colorWriteString style.caller.sfx.color style.caller.sfx.text else []) ++
  [' ']

/-- The caller-bytes resolution of Handle (handler source lines 256-275): the
cache is consulted first; on a miss the pc resolves to name/file/line, the
file path replaces the name when the style requests the full path, and an
empty file (resolution failure) omits the segment. The source also stores
freshly built bytes into the shared pcCache keyed by the raw pc; that write
only affects later performance, never output, and is elided here. -/
def callerBytes (h : Handler) (pc : Nat) : Option GoStr :=
  match lookupPC h.pcCache pc with
  | some b => some b
  | none =>
    match h.resolvePC pc with
    | none => none
    | some (name, file, line) =>
      if file ≠ [] then
        some ((if h.style.caller.fullpath then file else name) ++ ':' :: intDec line)
      else none

/-- The attached-attributes fallback loop of Handle (handler source lines
322-329) and the cache-building loop of WithAttrs (lines 373-379): attributes
with an empty key are skipped, each surviving one is written with a leading
space. -/
def writeHandlerAttrs (attrs : List Attr) (groups : List GoStr) (style : Style) (timeLayout : GoStr) : GoStr :=
  match attrs with
  | [] => []
  | a :: rest =>
      (if a.key = [] then [] else ' ' :: writeAttr a groups style timeLayout) ++
      writeHandlerAttrs rest groups style timeLayout

/-- Application of the optional redaction function to one attribute. -/
def applyAttrHandler (fn : Option (Attr → Attr)) (a : Attr) : Attr :=
  match fn with
  | some f => f a
  | none => a

/-- The record-attributes closure of Handle (handler source lines 330-340):
attributes whose (original) key is empty are skipped; every other attribute is
passed through the redaction function (when configured) exactly once and then
written with a leading space. -/
def writeRecordAttrs (fn : Option (Attr → Attr)) (attrs : List Attr) (groups : List GoStr) (style : Style) (timeLayout : GoStr) : GoStr :=
  match attrs with
  | [] => []
  | a :: rest =>
      (if a.key = [] then [] else ' ' :: writeAttr (applyAttrHandler fn a) groups style timeLayout) ++
      writeRecordAttrs fn rest groups style timeLayout

/-- The line Handle assembles for a classified record (handler source lines
228-343), in source order: level segment (prefix, width-aligned or plain
text, suffix, trailing space), caller segment, label segment, message, time
segment, attached attributes (cache verbatim when non-empty, else re-rendered
live), record attributes, and the final newline. The group stack is seeded
with the handler groups: the source re-fills the groupsCache backing array
from h.groups, which denotes the list h.groups. -/
def renderOutput (h : Handler) (r : Record) (ls : LevelStyle) : GoStr :=
  (if ls.text ≠ [] then
    (if ls.pfx.text ≠ [] then colorWriteString ls.pfx.color ls.pfx.text else []) ++
    (if 0 < ls.width then colorWriteBytes ls.color (align [] ls.text ls.width)
     else colorWriteString ls.color ls.text) ++
    (if ls.sfx.text ≠ [] then colorWriteString ls.sfx.color ls.sfx.text else []) ++
    [' ']
   else []) ++
  (if h.hasCaller && r.pc != 0 then
    match callerBytes h r.pc with
    | some b => writeCaller b h.style
    | none => []
   else []) ++
  (if h.label ≠ [] then
    (if h.style.label.pfx.text ≠ [] then
      colorWriteString h.style.label.pfx.color h.style.label.pfx.text else []) ++
    (if 0 < h.style.label.width then
      colorWriteBytes h.style.label.color (align [] h.label h.style.label.width)
     else colorWriteString h.style.label.color h.label) ++
    (if h.style.label.sfx.text ≠ [] then
      colorWriteString h.style.label.sfx.color h.style.label.sfx.text else []) ++
    [' ']
   else []) ++
  r.message ++
  (if h.hasTime then
    ' ' :: colorWriteString h.style.attr.keyColor "time".toList ++
    colorWriteString h.style.attr.keyColor h.style.attr.separator ++
    colorWriteBytes h.style.attr.valueColor r.timeRendered
   else []) ++
  (if h.attrsCache ≠ [] then h.attrsCache
   else writeHandlerAttrs h.attrs h.groups h.style h.timeLayout) ++
  writeRecordAttrs h.attrHandler r.attrs h.groups h.style h.timeLayout ++
  ['\n']

/-- Handle (handler source lines 204-346) with the buffer pool made explicit:
outstanding counts buffers acquired from the pool and not yet returned, and
writes is the log of lines flushed to the destination writer. An unclassified
severity returns the error before any buffer is acquired and before anything
is written. Otherwise the line buffer is acquired (and returned on exit by
the deferred put), a scratch buffer is acquired and returned around each
width alignment, the line is flushed, and a sink failure is returned
verbatim. -/
def handle (h : Handler) (r : Record) (outstanding : Nat) (writes : List GoStr) :
    Nat × List GoStr × Except GoStr GoStr :=
  match classify h.style.level r.level with
  | none => (outstanding, writes, Except.error unknownLogLevel)
  | some ls =>
    let o := outstanding + 1
    let o := if ls.text ≠ [] ∧ 0 < ls.width then o + 1 - 1 else o
    let o := if h.label ≠ [] ∧ 0 < h.style.label.width then o + 1 - 1 else o
    let out := renderOutput h r ls
    let ws := writes ++ [out]
    match h.sinkErr out with
    | some e => (o - 1, ws, Except.error e)
    | none => (o - 1, ws, Except.ok out)

/-- Go map assignment on the association-list model: replace the binding when
the key exists, append it otherwise. -/
def assocSet (m : LevelMap) (l : Int) (v : LevelStyle) : LevelMap :=
  match m with
  | [] => [(l, v)]
  | (k, w) :: rest => if k = l then (l, v) :: rest else (k, w) :: assocSet rest l v

/-- A Style whose Level map is a reference into a heap of maps, making the
Go pointer-sharing of the map explicit for the Clone invariant. levelAddr is
none exactly when the Go Level field is a nil map. -/
structure StyleRef where
  levelAddr : Option Nat
  label : LabelStyle
  attr : AttrStyle
  caller : CallerStyle

/-- Clone (style.go lines 1079-1090) over the map heap: a nil receiver clones
to nil; otherwise the struct is copied by value, and a non-nil Level map is
replaced by a freshly allocated map holding copies of the entries
(make + maps.Copy). -/
def cloneStyle (heap : List LevelMap) (s : Option StyleRef) : List LevelMap × Option StyleRef :=
  match s with
  | none => (heap, none)
  | some st =>
    match st.levelAddr with
    | none => (heap, some st)
    | some a =>
        (heap ++ [(heap[a]?).getD []], some { st with levelAddr := some heap.length })

/-- Store of one level-map entry through a heap address (what the Go statement
s.Level[lvl] = v does on the map a style references). -/
def heapSetEntry (heap : List LevelMap) (addr : Nat) (l : Int) (v : LevelStyle) : List LevelMap :=
  match heap[addr]? with
  | some m => heap.set addr (assocSet m l v)
  | none => heap

/-- Read of one level-map entry through a heap address (Go map read with the
zero-value default). -/
def heapLookupEntry (heap : List LevelMap) (addr : Nat) (l : Int) : LevelStyle :=
  lookupLevel ((heap[addr]?).getD []) l

/-- Heap state for the handler-derivation model: cells of attribute arrays,
cached byte arrays, and group-name arrays. Derivations only ever allocate new
cells at the end. -/
structure HState where
  attrCells : List (List Attr)
  byteCells : List GoStr
  strCells : List (List GoStr)

/-- A CLIHandler whose slice-backed fields are references into an HState,
making the Go backing-array sharing of struct copies explicit. A none address
is a nil slice. The mutex, writer, pc cache and the scalar configuration are
not involved in the derivation writes and are carried as plain values. -/
structure HandlerRef where
  level : Option Int
  label : GoStr
  attrs : Option Nat
  attrsCache : Option Nat
  attrHandler : Option (Attr → Attr)
  groups : Option Nat
  groupsCache : Option Nat
  hasCaller : Bool
  hasTime : Bool
  timeLayout : GoStr
  style : Style

/-- The attribute list a handler reference observes (nil slice reads as
empty). -/
def readAttrs (st : HState) (h : HandlerRef) : List Attr :=
  match h.attrs with
  | none => []
  | some a => (st.attrCells[a]?).getD []

/-- The cached pre-rendered attribute bytes a handler reference observes. -/
def readCacheBytes (st : HState) (h : HandlerRef) : GoStr :=
  match h.attrsCache with
  | none => []
  | some a => (st.byteCells[a]?).getD []

/-- The group-name list a handler reference observes. -/
def readGroups (st : HState) (h : HandlerRef) : List GoStr :=
  match h.groups with
  | none => []
  | some a => (st.strCells[a]?).getD []

/-- WithAttrs (handler source lines 349-394) over the heap: empty input
returns the same instance; otherwise the new attribute list is the old one
followed by the new ones, every element passed through the redaction function
when one is configured, stored in a fresh cell; the full list is re-rendered
against the current group stack into a fresh cache cell (or a nil cache when
nothing rendered), and the group snapshot is copied into a fresh cell (or nil
when there are no groups). Every write targets a freshly allocated cell. -/
def withAttrsRef (st : HState) (h : HandlerRef) (attrs : List Attr) : HState × HandlerRef :=
  if attrs.isEmpty then (st, h)
  else
    let old := readAttrs st h
    let a := match h.attrHandler with
      | none => old ++ attrs
      | some f => old.map f ++ attrs.map f
    let aAddr := st.attrCells.length
    let st1 : HState := { st with attrCells := st.attrCells ++ [a] }
    let gs := readGroups st h
    let cache := writeHandlerAttrs a gs h.style h.timeLayout
    let st2 : HState :=
      if cache ≠ [] then { st1 with byteCells := st1.byteCells ++ [cache] } else st1
    let cacheAddr : Option Nat := if cache ≠ [] then some st1.byteCells.length else none
    let st3 : HState :=
      if gs ≠ [] then { st2 with strCells := st2.strCells ++ [gs] } else st2
    let gcAddr : Option Nat := if gs ≠ [] then some st2.strCells.length else none
    (st3, { h with attrs := some aAddr, attrsCache := cacheAddr, groupsCache := gcAddr })

/-- WithGroup (handler source lines 397-408) over the heap: an empty name
returns the same instance; otherwise the group list plus the new name is
stored in a fresh cell, the attribute cache of the copy is set to nil (the
ancestor keeps its own), and the group snapshot is copied into a second fresh
cell. Every write targets a freshly allocated cell. -/
def withGroupRef (st : HState) (h : HandlerRef) (name : GoStr) : HState × HandlerRef :=
  if name.isEmpty then (st, h)
  else
    let gs := readGroups st h ++ [name]
    let gAddr := st.strCells.length
    let st1 : HState := { st with strCells := st.strCells ++ [gs] }
    let gcAddr := st1.strCells.length
    let st2 : HState := { st1 with strCells := st1.strCells ++ [gs] }
    (st2, { h with groups := some gAddr, attrsCache := none, groupsCache := some gcAddr })

/-- Concrete map heap used to instantiate the Clone theorem. -/
def heapW : List LevelMap := [[(levelInfo, zeroLevelStyle)]]

/-- Concrete style reference into heapW used to instantiate the Clone
theorem. -/
def styleRefW : StyleRef :=
  { levelAddr := some 0, label := zeroLabelStyle, attr := style0.attr, caller := style0.caller }

/-- Concrete derivation heap used to instantiate the derivation frame
theorem: one attribute cell, one cache cell, one group cell. -/
def hstateW : HState :=
  { attrCells := [[Attr.mk ['a'] (.vstring ['1'])]]
    byteCells := [" a=1".toList]
    strCells := [[['g']]] }

/-- Concrete handler reference into hstateW used to instantiate the
derivation frame theorem. -/
def handlerRefW : HandlerRef :=
  { level := some levelInfo
    label := []
    attrs := some 0
    attrsCache := some 0
    attrHandler := none
    groups := some 0
    groupsCache := some 0
    hasCaller := false
    hasTime := false
    timeLayout := []
    style := style0 }

/-- Helper: writing through an absent color is the identity on the content. -/
theorem colorWriteString_none (s : GoStr) : colorWriteString none s = s := by
  cases s <;> simp [colorWriteString]

/-- Helper: byte writing through an absent color is the identity. -/
theorem colorWriteBytes_none (b : GoStr) : colorWriteBytes none b = b := by
  cases b <;> simp [colorWriteBytes]

/-- Helper: the zero-code color carries no escape bytes, so writing through it
is the identity on the content. -/
theorem colorWriteString_zero (s : GoStr) : colorWriteString (some (newColor [])) s = s := by
  cases s <;> simp [colorWriteString, newColor]

/-- Helper: byte variant of colorWriteString_zero. -/
theorem colorWriteBytes_zero (b : GoStr) : colorWriteBytes (some (newColor [])) b = b := by
  cases b <;> simp [colorWriteBytes, newColor]

/-- Helper: with no key color, the group-path block is each group key followed
by a dot. -/
theorem writeGroupPath_none (g : List GoStr) :
    writeGroupPath none g = g.flatMap (fun k => k ++ ['.']) := by
  induction g with
  | nil => rfl
  | cons k rest ih =>
    cases rest with
    | nil => simp [writeGroupPath, writeGroupKeys, colorWriteString_none]
    | cons b r2 =>
      have hrest : writeGroupKeys none (b :: r2) ++ colorWriteString none ['.'] =
          (b :: r2).flatMap (fun k => k ++ ['.']) := by
        simpa [writeGroupPath] using ih
      simp only [writeGroupPath, writeGroupKeys, colorWriteString_none, List.flatMap_cons] at hrest ⊢
      rw [List.append_assoc, List.append_assoc, hrest]
      simp [List.append_assoc]

/-- Helper: the children loop separates sibling renderings with single
spaces and adds no trailing separator. -/
theorem writeAttrChildren_join (attrs : List Attr) (g : List GoStr) (st : Style) (tl : GoStr) :
    writeAttrChildren attrs g st tl = joinSpace (attrs.map (fun a => writeAttr a g st tl)) := by
  induction attrs with
  | nil => rfl
  | cons a rest ih =>
    cases rest with
    | nil => simp [writeAttrChildren, joinSpace]
    | cons b r2 => simp [writeAttrChildren, joinSpace, ih]

/-- C3: NewColor of an empty code list (and of a nil list, which is the same
empty list in this model) has empty codes, activate and reset fields, and
WriteString/WriteBytes through that color, or through a nil color receiver,
emit exactly the plain content with no escape bytes and no crash. -/
theorem color_zero_passthrough_spec :
    newColor [] = { codes := [], pfx := [], reset := [] } ∧
    (∀ s, colorWriteString (some (newColor [])) s = s) ∧
    (∀ b, colorWriteBytes (some (newColor [])) b = b) ∧
    (∀ s, colorWriteString none s = s) ∧
    (∀ b, colorWriteBytes none b = b) := by
  exact ⟨rfl, colorWriteString_zero, colorWriteBytes_zero,
    colorWriteString_none, colorWriteBytes_none⟩

/-- C4: when the field width does not exceed the display width of the text,
align emits the text unchanged; when it does, the text is surrounded by
exactly width-minus-display-width spaces, the left pad is the floor half and
the remainder goes right (so the pads differ by at most one, larger on the
right); widths count display columns, and the double-width character example
gets one pad column per side in a width-4 field. -/
theorem align_center_spec (buf s : GoStr) (w : Int) :
    (w ≤ (stringWidth s : Int) → align buf s w = buf ++ s) ∧
    ((stringWidth s : Int) < w →
      align buf s w =
        buf ++ spaces ((w - (stringWidth s : Int)).toNat / 2) ++ s ++
          spaces ((w - (stringWidth s : Int)).toNat - (w - (stringWidth s : Int)).toNat / 2) ∧
      (w - (stringWidth s : Int)).toNat / 2 +
        ((w - (stringWidth s : Int)).toNat - (w - (stringWidth s : Int)).toNat / 2) =
        (w - (stringWidth s : Int)).toNat ∧
      (w - (stringWidth s : Int)).toNat / 2 ≤
        (w - (stringWidth s : Int)).toNat - (w - (stringWidth s : Int)).toNat / 2 ∧
      (w - (stringWidth s : Int)).toNat - (w - (stringWidth s : Int)).toNat / 2 ≤
        (w - (stringWidth s : Int)).toNat / 2 + 1) ∧
    align [] ['あ'] 4 = [' ', 'あ', ' '] := by
  refine ⟨fun hle => ?_, fun hlt => ⟨?_, by omega, by omega, by omega⟩, by decide⟩
  · simp only [align]
    split_ifs with h1 h2
    · exfalso; omega
    · rfl
    · rfl
  · simp only [align]
    split_ifs with h1 h2
    · rfl
    · exfalso; omega
    · exfalso; omega

/-- C4 witness: the theorem applied at concrete inputs, discharging each
hypothesis; covers the unchanged case, the even split, and the odd split
with the extra space on the right. -/
theorem align_center_spec_witness :
    align [] "foo".toList 2 = [] ++ "foo".toList ∧
    align [] "foo".toList 5 =
      [] ++ spaces (((5 : Int) - (stringWidth "foo".toList : Int)).toNat / 2) ++ "foo".toList ++
        spaces (((5 : Int) - (stringWidth "foo".toList : Int)).toNat -
          ((5 : Int) - (stringWidth "foo".toList : Int)).toNat / 2) ∧
    align [] "foo".toList 6 =
      [] ++ spaces (((6 : Int) - (stringWidth "foo".toList : Int)).toNat / 2) ++ "foo".toList ++
        spaces (((6 : Int) - (stringWidth "foo".toList : Int)).toNat -
          ((6 : Int) - (stringWidth "foo".toList : Int)).toNat / 2) :=
  ⟨(align_center_spec [] "foo".toList 2).1 (by decide),
   ((align_center_spec [] "foo".toList 5).2.1 (by decide)).1,
   ((align_center_spec [] "foo".toList 6).2.1 (by decide)).1⟩

/-- C7: the nested-group scenario renders exactly outer.inner.key=value under
the no-color style; a group-kind attribute pushes its key onto the group
stack and renders its children; children are space-separated with no trailing
separator; and the group path is the keys each followed by a dot (joined with
dots, trailing dot before the leaf key). -/
theorem group_nesting_spec :
    writeAttr
      (.mk "outer".toList
        (.vgroup [.mk "inner".toList
          (.vgroup [.mk "key".toList (.vstring "value".toList)])]))
      [] style0 [] = "outer.inner.key=value".toList ∧
    (∀ name children g st tl,
      writeAttr (.mk name (.vgroup children)) g st tl =
        writeAttrChildren children (g ++ [name]) st tl) ∧
    (∀ attrs g st tl,
      writeAttrChildren attrs g st tl =
        joinSpace (attrs.map (fun a => writeAttr a g st tl))) ∧
    (∀ g, writeGroupPath none g = g.flatMap (fun k => k ++ ['.'])) := by
  refine ⟨by decide, fun name children g st tl => ?_, writeAttrChildren_join, writeGroupPath_none⟩
  simp [writeAttr]

/-- C8: the record-attributes pass of Handle writes, for every attribute whose
key is non-empty, exactly one segment consisting of one leading space and the
rendering of the attribute after a single application of the configured
redaction function; attributes with an empty key contribute nothing at all. -/
theorem record_attr_redaction_spec (fn : Option (Attr → Attr)) (attrs : List Attr)
    (g : List GoStr) (st : Style) (tl : GoStr) :
    writeRecordAttrs fn attrs g st tl =
      attrs.flatMap (fun a =>
        if a.key = [] then [] else ' ' :: writeAttr (applyAttrHandler fn a) g st tl) := by
  induction attrs with
  | nil => rfl
  | cons a rest ih => simp only [writeRecordAttrs, List.flatMap_cons, ih]

/-- C9 counterexample: a string value consisting of one carriage return
contains a whitespace character, yet writeAttr emits it bare, not in the
double-quote-escaped form the claim requires for whitespace-containing
strings. The quoting condition of the source checks only space, tab and
newline. -/
theorem string_quoting_counterexample :
    writeAttr (.mk ['k'] (.vstring [Char.ofNat 13])) [] style0 [] =
      'k' :: '=' :: [Char.ofNat 13] ∧
    (Char.ofNat 13).isWhitespace = true ∧
    'k' :: '=' :: [Char.ofNat 13] ≠ ['k', '='] ++ goQuote [Char.ofNat 13] := by
  refine ⟨by decide, by decide, by decide⟩

/-- C9 (amended): under the no-color style a string-valued attribute renders
as the group path, the key, the separator, and then the double-quote-escaped
form of the value exactly when the value contains a space, tab or newline
character, or a backslash or a double-quote character, and the bare value
otherwise; in particular value "a b" renders quoted and value "ab" bare. -/
theorem string_quoting_amended_spec :
    (∀ key s g tl,
      writeAttr (.mk key (.vstring s)) g style0 tl =
        g.flatMap (fun k => k ++ ['.']) ++ key ++ '=' ::
          (if needsQuote s then goQuote s else s)) ∧
    (∀ s, needsQuote s =
      s.any (fun c => c == ' ' || c == '\t' || c == '\n' || c == '\\' || c == '"')) ∧
    writeAttr (.mk ['k'] (.vstring "a b".toList)) [] style0 [] = "k=\"a b\"".toList ∧
    writeAttr (.mk ['k'] (.vstring "ab".toList)) [] style0 [] = "k=ab".toList := by
  refine ⟨fun key s g tl => ?_, fun s => ?_, by decide, by decide⟩
  · have h0 : style0.attr.keyColor = none := rfl
    have h1 : style0.attr.valueColor = none := rfl
    have h2 : style0.attr.separator = ['='] := rfl
    simp only [writeAttr, writeValue, h0, h1, h2, writeGroupPath_none, colorWriteString_none]
    by_cases hq : needsQuote s <;> simp [hq, List.append_assoc]
  · have hws : " \t\n".toList = [' ', '\t', '\n'] := rfl
    have hbq : "\\\"".toList = ['\\', '"'] := rfl
    rw [Bool.eq_iff_iff]
    simp only [needsQuote, containsAny, hws, hbq, Bool.or_eq_true, List.any_eq_true,
      List.contains_cons, List.contains_nil, beq_iff_eq, Bool.false_eq_true, or_false]
    aesop

/-- C10: the empty-key filter of the record-attributes pass tests the
original key before the redaction function runs; an attribute with a
non-empty key is emitted even when redaction rewrites its key to empty. -/
theorem empty_key_filter_order_spec (fn : Attr → Attr) (a : Attr) (rest : List Attr)
    (g : List GoStr) (st : Style) (tl : GoStr) (hk : a.key ≠ []) :
    writeRecordAttrs (some fn) (a :: rest) g st tl =
      ' ' :: writeAttr (fn a) g st tl ++ writeRecordAttrs (some fn) rest g st tl := by
  simp [writeRecordAttrs, applyAttrHandler, hk]

/-- C10 witness: a redaction function that blanks every key still leaves the
attribute emitted (as =v), because the skip test ran on the original key. -/
theorem empty_key_filter_order_spec_witness :
    writeRecordAttrs (some (fun x => Attr.mk [] x.value))
      [Attr.mk ['k'] (.vstring ['v'])] [] style0 [] = " =v".toList := by
  rw [empty_key_filter_order_spec (fun x => Attr.mk [] x.value)
    (Attr.mk ['k'] (.vstring ['v'])) [] [] style0 [] (by decide)]
  decide

/-- Helper: an option that is not a WithLevel option leaves the threshold
field untouched. -/
theorem applyOption_level (h : Handler) (o : HandlerOption)
    (ho : o.isLevelOption = false) : (applyOption h o).level = h.level := by
  cases o with
  | optLevel l => simp [HandlerOption.isLevelOption] at ho
  | optLabel s => rfl
  | optCaller b => rfl
  | optTime b => rfl
  | optTimeFormat s => simp only [applyOption]; split <;> rfl
  | optAttrHandler f => cases f <;> rfl
  | optStyle s => cases s <;> rfl

/-- Helper: folding a list of non-WithLevel options preserves the threshold. -/
theorem foldl_applyOption_level (opts : List HandlerOption) :
    ∀ h : Handler, (∀ o ∈ opts, o.isLevelOption = false) →
      (opts.foldl applyOption h).level = h.level := by
  induction opts with
  | nil => intro h _; rfl
  | cons o rest ih =>
    intro h hno
    have h1 : o.isLevelOption = false := hno o (List.mem_cons_self o rest)
    have h2 : ∀ x ∈ rest, x.isLevelOption = false :=
      fun x hx => hno x (List.mem_cons_of_mem o hx)
    simp only [List.foldl_cons]
    rw [ih (applyOption h o) h2, applyOption_level h o h1]

/-- C1: whenever the threshold interface is set to t, Enabled(level) is true
exactly when level is at least t; and a handler built by NewCLIHandler from
any option list containing no WithLevel option has its threshold equal to the
informational severity, so Enabled behaves exactly as threshold=info and in
particular rejects lower severities rather than accepting everything. -/
theorem enabled_threshold_spec (h : Handler) (t l : Int) (opts : List HandlerOption)
    (hsome : h.level = some t)
    (hno : ∀ o ∈ opts, o.isLevelOption = false) :
    (h.enabled l = true ↔ t ≤ l) ∧
    (newCLIHandler opts).level = some levelInfo ∧
    ((newCLIHandler opts).enabled l = true ↔ levelInfo ≤ l) := by
  have hlvl : (newCLIHandler opts).level = some levelInfo := by
    rw [newCLIHandler, foldl_applyOption_level opts defaultHandler hno]; rfl
  refine ⟨?_, hlvl, ?_⟩
  · simp [Handler.enabled, hsome]
  · simp [Handler.enabled, hlvl]

/-- C1 witness: the theorem at the default handler (threshold info), severity
3, and an option list holding one non-level option. -/
theorem enabled_threshold_spec_witness :
    (defaultHandler.enabled 3 = true ↔ levelInfo ≤ (3 : Int)) ∧
    (newCLIHandler [HandlerOption.optLabel ['x']]).level = some levelInfo ∧
    ((newCLIHandler [HandlerOption.optLabel ['x']]).enabled 3 = true ↔ levelInfo ≤ (3 : Int)) :=
  enabled_threshold_spec defaultHandler levelInfo 3 [HandlerOption.optLabel ['x']] rfl
    (by intro o ho
        rw [List.mem_singleton] at ho
        subst ho
        rfl)

/-- Helper: the classification switch fails exactly on severities outside the
four-way classification. -/
theorem classify_none_iff (m : LevelMap) (l : Int) :
    classify m l = none ↔
      ¬(l = levelDebug ∨ l = levelInfo ∨ l = levelWarn ∨ levelError ≤ l) := by
  unfold classify
  split_ifs with h1 h2 h3 h4 <;> simp_all

/-- Helper: the pool-counter bookkeeping of handle nets to zero in the
classified branch. -/
theorem handle_counter_eq (c1 c2 : Prop) [Decidable c1] [Decidable c2] (o : Nat) :
    (if c2 then (if c1 then o + 1 + 1 - 1 else o + 1) + 1 - 1
     else if c1 then o + 1 + 1 - 1 else o + 1) - 1 = o := by
  split_ifs <;> omega

/-- C2: a record severity the four-way classification rejects makes Handle
return the unknown-log-level error with nothing written to the sink and the
buffer pool untouched (no buffer was yet acquired); a classified severity
always succeeds up to the final sink write, flushing exactly one line and
returning every acquired buffer; and the only error Handle can return besides
the unknown-severity error is a sink write failure. -/
theorem handle_unknown_severity_spec (h : Handler) (r : Record) (outst : Nat)
    (ws : List GoStr) :
    (classify h.style.level r.level = none ↔
      ¬(r.level = levelDebug ∨ r.level = levelInfo ∨ r.level = levelWarn ∨
        levelError ≤ r.level)) ∧
    (classify h.style.level r.level = none →
      handle h r outst ws = (outst, ws, Except.error unknownLogLevel)) ∧
    (∀ ls, classify h.style.level r.level = some ls →
      handle h r outst ws = (outst, ws ++ [renderOutput h r ls],
        match h.sinkErr (renderOutput h r ls) with
        | some e => Except.error e
        | none => Except.ok (renderOutput h r ls))) ∧
    (∀ n w e, handle h r outst ws = (n, w, Except.error e) →
      (e = unknownLogLevel ∧ w = ws ∧ n = outst) ∨
      ∃ out, h.sinkErr out = some e) := by
  have hsome : ∀ ls, classify h.style.level r.level = some ls →
      handle h r outst ws = (outst, ws ++ [renderOutput h r ls],
        match h.sinkErr (renderOutput h r ls) with
        | some e => Except.error e
        | none => Except.ok (renderOutput h r ls)) := by
    intro ls hls
    simp only [handle, hls]
    rw [handle_counter_eq]
    cases hs : h.sinkErr (renderOutput h r ls) <;> simp [hs]
  have hnone : classify h.style.level r.level = none →
      handle h r outst ws = (outst, ws, Except.error unknownLogLevel) := by
    intro hn
    simp only [handle, hn]
  refine ⟨classify_none_iff h.style.level r.level, hnone, hsome, ?_⟩
  intro n w e heq
  cases hcls : classify h.style.level r.level with
  | none =>
    left
    rw [hnone hcls] at heq
    simp only [Prod.mk.injEq, Except.error.injEq] at heq
    exact ⟨heq.2.2.symm, heq.2.1.symm, heq.1.symm⟩
  | some ls =>
    right
    rw [hsome ls hcls] at heq
    cases hs : h.sinkErr (renderOutput h r ls) with
    | none =>
      rw [hs] at heq
      simp only [Prod.mk.injEq] at heq
      exact absurd heq.2.2 (by simp)
    | some e2 =>
      rw [hs] at heq
      simp only [Prod.mk.injEq, Except.error.injEq] at heq
      exact ⟨renderOutput h r ls, by rw [hs, heq.2.2]⟩

/-- C2 witness: the theorem applied to the default handler; severity 2 falls
outside the classification and yields the error with nothing written and the
pool intact, while severity 0 (info) renders one line and succeeds. -/
theorem handle_unknown_severity_spec_witness :
    handle defaultHandler (Record.mk 2 "msg".toList [] 0 []) 0 [] =
      (0, [], Except.error unknownLogLevel) ∧
    handle defaultHandler (Record.mk 0 "msg".toList [] 0 []) 0 [] =
      (0, [renderOutput defaultHandler (Record.mk 0 "msg".toList [] 0 [])
            (lookupLevel style1.level levelInfo)],
        Except.ok (renderOutput defaultHandler (Record.mk 0 "msg".toList [] 0 [])
          (lookupLevel style1.level levelInfo))) := by
  constructor
  · exact (handle_unknown_severity_spec defaultHandler
      (Record.mk 2 "msg".toList [] 0 []) 0 []).2.1 (by decide)
  · have h3 := (handle_unknown_severity_spec defaultHandler
      (Record.mk 0 "msg".toList [] 0 []) 0 []).2.2.1
      (lookupLevel style1.level levelInfo) (by decide)
    simpa [defaultHandler] using h3

/-- C5: Clone of a nil style is nil; Clone of a style holding a level map
copies the struct by value with the level mapping moved to a freshly
allocated map (a distinct address holding equal entries), so that replacing
or mutating any level-map entry of the clone leaves every entry the original
observes unchanged. -/
theorem style_clone_deep_copy_spec (heap : List LevelMap) (st : StyleRef) (a : Nat)
    (hA : st.levelAddr = some a) (hBound : a < heap.length) :
    cloneStyle heap none = (heap, none) ∧
    (cloneStyle heap (some st)).2 = some { st with levelAddr := some heap.length } ∧
    heap.length ≠ a ∧
    (∀ l, heapLookupEntry (cloneStyle heap (some st)).1 heap.length l =
      heapLookupEntry heap a l) ∧
    (∀ l, heapLookupEntry (cloneStyle heap (some st)).1 a l = heapLookupEntry heap a l) ∧
    (∀ l v l2,
      heapLookupEntry (heapSetEntry (cloneStyle heap (some st)).1 heap.length l v) a l2 =
        heapLookupEntry heap a l2) := by
  have hclone : cloneStyle heap (some st) =
      (heap ++ [(heap[a]?).getD []], some { st with levelAddr := some heap.length }) := by
    simp only [cloneStyle, hA]
  refine ⟨rfl, by rw [hclone], by omega, ?_, ?_, ?_⟩
  · intro l
    rw [hclone]
    simp only [heapLookupEntry]
    rw [List.getElem?_concat_length]
    rfl
  · intro l
    rw [hclone]
    simp only [heapLookupEntry]
    rw [List.getElem?_append_left hBound]
  · intro l v l2
    rw [hclone]
    simp only [heapSetEntry, heapLookupEntry]
    rw [List.getElem?_concat_length]
    simp only [Option.getD_some]
    rw [List.getElem?_set_ne (show heap.length ≠ a by omega),
      List.getElem?_append_left hBound]

/-- C5 witness: the theorem at a one-cell heap and a style referencing that
cell; the clone lands at address 1 and mutating it leaves address 0 intact. -/
theorem style_clone_deep_copy_spec_witness :
    cloneStyle heapW none = (heapW, none) ∧
    (cloneStyle heapW (some styleRefW)).2 = some { styleRefW with levelAddr := some heapW.length } ∧
    heapW.length ≠ 0 ∧
    (∀ l, heapLookupEntry (cloneStyle heapW (some styleRefW)).1 heapW.length l =
      heapLookupEntry heapW 0 l) ∧
    (∀ l, heapLookupEntry (cloneStyle heapW (some styleRefW)).1 0 l = heapLookupEntry heapW 0 l) ∧
    (∀ l v l2,
      heapLookupEntry (heapSetEntry (cloneStyle heapW (some styleRefW)).1 heapW.length l v) 0 l2 =
        heapLookupEntry heapW 0 l2) :=
  style_clone_deep_copy_spec heapW styleRefW 0 rfl (by decide)

/-- Helper: appending one cell to a list preserves reads below the old
length. -/
theorem getElem?_append_lt {α : Type} (l : List α) (x : α) (i : Nat)
    (hi : i < l.length) : (l ++ [x])[i]? = l[i]? :=
  List.getElem?_append_left hi

/-- Helper: WithAttrs only allocates; every pre-existing cell of all three
heaps reads as before. -/
theorem withAttrsRef_frame (st : HState) (h : HandlerRef) (attrs : List Attr) :
    (∀ i, i < st.attrCells.length →
      ((withAttrsRef st h attrs).1).attrCells[i]? = st.attrCells[i]?) ∧
    (∀ i, i < st.byteCells.length →
      ((withAttrsRef st h attrs).1).byteCells[i]? = st.byteCells[i]?) ∧
    (∀ i, i < st.strCells.length →
      ((withAttrsRef st h attrs).1).strCells[i]? = st.strCells[i]?) := by
  refine ⟨fun i hi => ?_, fun i hi => ?_, fun i hi => ?_⟩ <;>
    · simp only [withAttrsRef]
      split_ifs <;> simp_all [getElem?_append_lt]

/-- Helper: WithGroup only allocates; every pre-existing cell of all three
heaps reads as before. -/
theorem withGroupRef_frame (st : HState) (h : HandlerRef) (name : GoStr) :
    (∀ i, i < st.attrCells.length →
      ((withGroupRef st h name).1).attrCells[i]? = st.attrCells[i]?) ∧
    (∀ i, i < st.byteCells.length →
      ((withGroupRef st h name).1).byteCells[i]? = st.byteCells[i]?) ∧
    (∀ i, i < st.strCells.length →
      ((withGroupRef st h name).1).strCells[i]? = st.strCells[i]?) := by
  refine ⟨fun i hi => ?_, fun i hi => ?_, fun i hi => ?_⟩
  · simp only [withGroupRef]
    split_ifs <;> rfl
  · simp only [withGroupRef]
    split_ifs <;> rfl
  · simp only [withGroupRef]
    split_ifs with hn
    · rfl
    · show ((st.strCells ++ [readGroups st h ++ [name]]) ++ [readGroups st h ++ [name]])[i]? =
        st.strCells[i]?
      rw [List.getElem?_append_left (by simp; omega :
            i < (st.strCells ++ [readGroups st h ++ [name]]).length),
          List.getElem?_append_left hi]

/-- Helper: the attribute-list observation is stable under any state change
that preserves pre-existing attribute cells. -/
theorem readAttrs_stable (st st' : HState) (h : HandlerRef)
    (hc : ∀ i, i < st.attrCells.length → st'.attrCells[i]? = st.attrCells[i]?)
    (hA : ∀ x, h.attrs = some x → x < st.attrCells.length) :
    readAttrs st' h = readAttrs st h := by
  cases hx : h.attrs with
  | none => simp only [readAttrs, hx]
  | some x =>
    simp only [readAttrs, hx]
    rw [hc x (hA x hx)]

/-- Helper: the cached-bytes observation is stable under any state change
that preserves pre-existing byte cells. -/
theorem readCacheBytes_stable (st st' : HState) (h : HandlerRef)
    (hc : ∀ i, i < st.byteCells.length → st'.byteCells[i]? = st.byteCells[i]?)
    (hC : ∀ x, h.attrsCache = some x → x < st.byteCells.length) :
    readCacheBytes st' h = readCacheBytes st h := by
  cases hx : h.attrsCache with
  | none => simp only [readCacheBytes, hx]
  | some x =>
    simp only [readCacheBytes, hx]
    rw [hc x (hC x hx)]

/-- Helper: the group-list observation is stable under any state change that
preserves pre-existing string cells. -/
theorem readGroups_stable (st st' : HState) (h : HandlerRef)
    (hc : ∀ i, i < st.strCells.length → st'.strCells[i]? = st.strCells[i]?)
    (hG : ∀ x, h.groups = some x → x < st.strCells.length) :
    readGroups st' h = readGroups st h := by
  cases hx : h.groups with
  | none => simp only [readGroups, hx]
  | some x =>
    simp only [readGroups, hx]
    rw [hc x (hG x hx)]

/-- C6: for a handler whose references are live in the heap, deriving with
WithAttrs or WithGroup leaves the ancestor observably unchanged: its
attribute list, its cached pre-rendered attribute bytes, and its group list
read exactly the same after the derivation as before, so the ancestor
remains usable. -/
theorem derive_frame_spec (st : HState) (h : HandlerRef) (attrs : List Attr) (name : GoStr)
    (hA : ∀ x, h.attrs = some x → x < st.attrCells.length)
    (hC : ∀ x, h.attrsCache = some x → x < st.byteCells.length)
    (hG : ∀ x, h.groups = some x → x < st.strCells.length) :
    (readAttrs (withAttrsRef st h attrs).1 h = readAttrs st h ∧
     readCacheBytes (withAttrsRef st h attrs).1 h = readCacheBytes st h ∧
     readGroups (withAttrsRef st h attrs).1 h = readGroups st h) ∧
    (readAttrs (withGroupRef st h name).1 h = readAttrs st h ∧
     readCacheBytes (withGroupRef st h name).1 h = readCacheBytes st h ∧
     readGroups (withGroupRef st h name).1 h = readGroups st h) := by
  obtain ⟨fa1, fb1, fs1⟩ := withAttrsRef_frame st h attrs
  obtain ⟨fa2, fb2, fs2⟩ := withGroupRef_frame st h name
  exact ⟨⟨readAttrs_stable st _ h fa1 hA, readCacheBytes_stable st _ h fb1 hC,
      readGroups_stable st _ h fs1 hG⟩,
    ⟨readAttrs_stable st _ h fa2 hA, readCacheBytes_stable st _ h fb2 hC,
      readGroups_stable st _ h fs2 hG⟩⟩

/-- C6 witness: the theorem at a one-cell-per-heap state and a handler
referencing those cells, derived with one new attribute and one new group. -/
theorem derive_frame_spec_witness :
    (readAttrs (withAttrsRef hstateW handlerRefW [Attr.mk ['b'] (.vstring ['2'])]).1 handlerRefW =
       readAttrs hstateW handlerRefW ∧
     readCacheBytes (withAttrsRef hstateW handlerRefW [Attr.mk ['b'] (.vstring ['2'])]).1 handlerRefW =
       readCacheBytes hstateW handlerRefW ∧
     readGroups (withAttrsRef hstateW handlerRefW [Attr.mk ['b'] (.vstring ['2'])]).1 handlerRefW =
       readGroups hstateW handlerRefW) ∧
    (readAttrs (withGroupRef hstateW handlerRefW ['h']).1 handlerRefW =
       readAttrs hstateW handlerRefW ∧
     readCacheBytes (withGroupRef hstateW handlerRefW ['h']).1 handlerRefW =
       readCacheBytes hstateW handlerRefW ∧
     readGroups (withGroupRef hstateW handlerRefW ['h']).1 handlerRefW =
       readGroups hstateW handlerRefW) :=
  derive_frame_spec hstateW handlerRefW [Attr.mk ['b'] (.vstring ['2'])] ['h']
    (by intro x hx
        simp only [handlerRefW, Option.some.injEq] at hx
        simp [hstateW, ← hx])
    (by intro x hx
        simp only [handlerRefW, Option.some.injEq] at hx
        simp [hstateW, ← hx])
    (by intro x hx
        simp only [handlerRefW, Option.some.injEq] at hx
        simp [hstateW, ← hx])
